import Mathlib

/-!
Verification of the prediction-model binary-classifier repository.

This file gives a shallow embedding, in Lean 4, of the parts of the
repository that the specification's claims are about:

* `src/preprocessor.py` — `InsurancePreprocessor.process`, the feature
  transformation pipeline (identifier drop, boolean normalization, numeric
  coercion, ordinal encoding of `ncap_rating`, one-hot encoding, target
  extraction);
* `src/scaler_factory.py` — `ScalerFactory` (registry of scaler
  constructors, case-insensitive creation, descriptions, registration);
* `src/sampling_strategy.py` — the resampling strategies and
  `SamplingStrategyFactory`;
* `src/models.py` — `ModelEvaluator.evaluate`.

Pandas dataframes are modelled as ordered association lists of named
columns of cells; cells are null / string / integer / boolean values.
Python exceptions are modelled with `Except` over a structured error type.
External library calls (sklearn metric functions, sklearn's
`OrdinalEncoder` raising behaviour, imblearn resamplers) are embedded
following their documented behaviour on the value domain of the model.
-/

namespace PMBC

/-- Generic association-list lookup keyed by decidable equality;
`alookup k l` returns the value of the first pair in `l` whose key is `k`
(the semantics of a Python dict lookup/`in` test and of selecting a pandas
column by name). -/
def alookup {α β : Type} [DecidableEq α] (a : α) : List (α × β) → Option β
  | [] => none
  | p :: rest => if p.1 = a then some p.2 else alookup a rest

/-- Replace the value stored under key `a`, or append the binding when the
key is absent: the semantics of `d[a] = v` on a Python dict (overwrite in
place, insertion order preserved). -/
def aset {α β : Type} [DecidableEq α] (a : α) (v : β) (l : List (α × β)) : List (α × β) :=
  if (alookup a l).isSome then
    l.map (fun p => if p.1 = a then (a, v) else p)
  else
    l ++ [(a, v)]

/-! ## Cells and dataframes (the pandas value model) -/

/-- A single cell of a raw table: missing value (NaN/None), text, integer
number, or boolean. -/
inductive Cell where
  | null
  | str (s : String)
  | num (n : Int)
  | bool (b : Bool)
deriving DecidableEq

/-- A dataframe: an ordered list of named columns, each a list of cells. -/
structure DataFrame where
  cols : List (String × List Cell)
deriving DecidableEq

/-- Column names of a dataframe, in order (`df.columns`). -/
def DataFrame.names (d : DataFrame) : List String :=
  d.cols.map Prod.fst

/-- Select a column by name (`df[c]`): the first column named `c`. -/
def DataFrame.lookup (c : String) (d : DataFrame) : Option (List Cell) :=
  alookup c d.cols

/-- `c in df.columns`. -/
def DataFrame.hasCol (c : String) (d : DataFrame) : Bool :=
  (d.lookup c).isSome

/-- `df.drop(columns=[c])`: remove every column named `c`. -/
def DataFrame.dropColumn (c : String) (d : DataFrame) : DataFrame :=
  ⟨d.cols.filter (fun p => p.1 ≠ c)⟩

/-- `df[c] = df[c].map(f)`-style transformation: apply `f` cell-wise to the
column(s) named `c`, leaving all other columns unchanged. -/
def DataFrame.mapColumn (c : String) (f : Cell → Cell) (d : DataFrame) : DataFrame :=
  ⟨d.cols.map (fun p => if p.1 = c then (p.1, p.2.map f) else p)⟩

/-- `df[c] = cells`: overwrite the column named `c` in place when present,
otherwise append it as a new last column (pandas column assignment). -/
def DataFrame.assignColumn (c : String) (cells : List Cell) (d : DataFrame) : DataFrame :=
  ⟨aset c cells d.cols⟩

/-- A dataframe is rectangular with `n` rows when every column has `n`
cells (always true of a real pandas frame). -/
def DataFrame.IsRect (d : DataFrame) (n : Nat) : Prop :=
  ∀ p ∈ d.cols, p.2.length = n

/-! ## Errors raised by the pipeline -/

/-- The ValueError-class conditions `InsurancePreprocessor.process` can
propagate, keyed by their origin:
* `missingColumn col` — the preprocessor's own
  `ValueError(f"Target column '{target_col}' missing from dataset")`;
* `encoderUnknownCategory v` — sklearn `OrdinalEncoder` (default
  `handle_unknown="error"`) raising `Found unknown categories` on a value
  outside the declared category list;
* `encoderEmptyInput` — sklearn raising `Found array with 0 sample(s)`
  when `fit_transform` is given an empty column;
* `castError c` — pandas `astype(int)` failing on a cell that is not
  integer-convertible. -/
inductive PError where
  | missingColumn (col : String)
  | encoderUnknownCategory (v : String)
  | encoderEmptyInput
  | castError (c : Cell)
deriving DecidableEq

/-! ## The preprocessing pipeline (`InsurancePreprocessor.process`) -/

/-- Step 1 of `process`: `if "policy_id" in data.columns: data.drop(columns=["policy_id"], inplace=True)`
(dropping is a no-op when the column is absent). -/
def dropIdentifiers (d : DataFrame) : DataFrame :=
  if d.hasCol "policy_id" then d.dropColumn "policy_id" else d

/-- The `boolean_cols` list of `process` step 2. -/
def booleanCols : List String :=
  ["is_parking_camera", "is_tpms", "is_adjustable_steering", "is_esc",
   "is_parking_sensors", "is_front_fog_lights", "is_rear_window_wiper",
   "is_rear_window_washer", "is_rear_window_defogger", "is_brake_assist",
   "is_power_door_locks", "is_power_steering", "is_central_locking",
   "is_driver_seat_height_adjustable", "is_day_night_rear_view_mirror",
   "is_ecw", "is_speed_alert"]

/-- Cell-wise semantics of `data[col].map({'Yes': True, 'No': False}).fillna(False)`:
the exact string `Yes` maps to `True`, the exact string `No` maps to
`False`, and any other value (nulls, unrecognized strings, numbers,
booleans — all of which `map` sends to NaN) is filled with `False`. -/
def normalizeBool (c : Cell) : Cell :=
  match c with
  | .str "Yes" => .bool true
  | .str "No" => .bool false
  | _ => .bool false

/-- Apply `f` to column `c` if the column is present, else leave the frame
unchanged (the presence-guarded per-column loops of steps 2 and 3). -/
def mapIfPresent (c : String) (f : Cell → Cell) (d : DataFrame) : DataFrame :=
  if d.hasCol c then d.mapColumn c f else d

/-- Step 2 of `process`: boolean conversion of every `boolean_cols` column
present in the table. -/
def booleanConvert (d : DataFrame) : DataFrame :=
  booleanCols.foldl (fun acc c => mapIfPresent c normalizeBool acc) d

/-- The `float_cols` list of `process` step 3. -/
def floatCols : List String :=
  ["length", "width", "height", "gross_weight", "airbags", "population_density"]

/-- Decimal digit value of a character, if any. -/
def digitVal (c : Char) : Option Nat :=
  if 48 ≤ c.toNat ∧ c.toNat ≤ 57 then some (c.toNat - 48) else none

/-- Accumulate decimal digits (helper of `parseIntStr`). -/
def parseNatAux : List Char → Nat → Option Nat
  | [], acc => some acc
  | c :: rest, acc =>
    match digitVal c with
    | some d => parseNatAux rest (acc * 10 + d)
    | none => none

/-- Parse a non-empty all-digit character list as a natural number. -/
def parseNat (l : List Char) : Option Nat :=
  if l.isEmpty then none else parseNatAux l 0

/-- Integer parsing of a string (optional leading minus sign followed by
decimal digits), as the numeric-string parsing done by
`pd.to_numeric`/`astype(int)` on integer-formed text; any other text
fails to parse. -/
def parseIntStr (s : String) : Option Int :=
  match s.data with
  | '-' :: rest => (parseNat rest).map (fun n => -(n : Int))
  | l => (parseNat l).map (fun n => (n : Int))

/-- Cell-wise semantics of `pd.to_numeric(data[col], errors="coerce")`:
numbers pass through, booleans coerce to 0/1, parseable numeric strings
parse, and everything else (nulls included) becomes the missing marker. -/
def toNumericCell (c : Cell) : Cell :=
  match c with
  | .num n => .num n
  | .bool b => .num (if b then 1 else 0)
  | .str s => match parseIntStr s with
    | some n => .num n
    | none => .null
  | .null => .null

/-- Step 3 of `process`: numeric coercion of every `float_cols` column
present in the table. -/
def floatConvert (d : DataFrame) : DataFrame :=
  floatCols.foldl (fun acc c => mapIfPresent c toNumericCell acc) d

/-- `astype(str)` on a single cell: the string form pandas produces
(`NaN` prints as `nan`, booleans as `True`/`False`). -/
def astypeStr (c : Cell) : String :=
  match c with
  | .null => "nan"
  | .str s => s
  | .num n => toString n
  | .bool b => if b then "True" else "False"

/-- The fixed category list `["0", "1", "2", "3", "4", "5"]` handed to
`OrdinalEncoder` in step 4. -/
def ncapCategories : List String :=
  ["0", "1", "2", "3", "4", "5"]

/-- Rank of a category value in an ordered category list (`OrdinalEncoder`
encodes each value as its index in the declared list). -/
def rankIn : List String → String → Nat
  | [], _ => 0
  | c :: rest, s => if c = s then 0 else rankIn rest s + 1

/-- Step 4 of `process`: if `ncap_rating` is present, cast it to strings
and ordinal-encode it into a new `NCAP_Rating` column, then drop the
original column.  sklearn's `OrdinalEncoder` (constructed here with a
fixed category list and the default `handle_unknown="error"`) raises a
`ValueError` on an empty column (`0 sample(s)`) and on any value outside
the declared categories (`Found unknown categories`). -/
def ordinalEncode (d : DataFrame) : Except PError DataFrame :=
  match d.lookup "ncap_rating" with
  | none => .ok d
  | some cells =>
    let strs := cells.map astypeStr
    if strs.isEmpty then .error .encoderEmptyInput
    else
      match strs.find? (fun s => !(ncapCategories.contains s)) with
      | some bad => .error (.encoderUnknownCategory bad)
      | none =>
        let encoded := strs.map (fun s => Cell.num (Int.ofNat (rankIn ncapCategories s)))
        .ok ((d.assignColumn "NCAP_Rating" encoded).dropColumn "ncap_rating")

/-- Decidable condition under which step 4 does not raise: `ncap_rating`
is absent, or it is a non-empty column all of whose cells have string
forms inside the declared category list. -/
def ncapOkB (d : DataFrame) : Bool :=
  match d.lookup "ncap_rating" with
  | none => true
  | some cells =>
    !cells.isEmpty && cells.all (fun c => ncapCategories.contains (astypeStr c))

/-- The `categorical_cols` list of `process` step 5. -/
def categoricalCols : List String :=
  ["transmission_type", "cylinder", "gear_box", "rear_brakes_type",
   "steering_type", "fuel_type", "make", "segment", "model",
   "engine_type", "max_torque", "max_power", "area_cluster", "displacement"]

/-- Insert a cell into a list sorted by the pandas string form of the
cell (helper for the sorted category order `get_dummies` uses). -/
def insertSortedCell (c : Cell) : List Cell → List Cell
  | [] => [c]
  | x :: rest =>
    if astypeStr c ≤ astypeStr x then c :: x :: rest
    else x :: insertSortedCell c rest

/-- Sort cells by their string form (the sorted order of the observed
category values that `get_dummies` enumerates). -/
def sortCells : List Cell → List Cell
  | [] => []
  | x :: rest => insertSortedCell x (sortCells rest)

/-- Indicator columns `pd.get_dummies` generates for one categorical
column with `drop_first=True`: the distinct non-null observed values, in
sorted order, minus the first (reference) category; each remaining
category `v` becomes a boolean column named `<col>_<v>` flagging the rows
equal to `v` (null rows are all-false). -/
def dummiesForColumn (col : String) (cells : List Cell) : List (String × List Cell) :=
  let cats := sortCells ((cells.filter (fun c => c ≠ Cell.null)).dedup)
  (cats.drop 1).map
    (fun cat => (col ++ "_" ++ astypeStr cat, cells.map (fun c => Cell.bool (c = cat))))

/-- Step 5 of `process`:
`pd.get_dummies(data, columns=[c for c in categorical_cols if c in data.columns], drop_first=True)` —
the non-encoded columns keep their order, followed by the indicator
columns of each present categorical column. -/
def get_dummies (d : DataFrame) : DataFrame :=
  let present := categoricalCols.filter (fun c => d.hasCol c)
  let others := d.cols.filter (fun p => decide (p.1 ∉ present))
  let dummies := present.foldr
    (fun c acc => (match d.lookup c with
      | some cells => dummiesForColumn c cells
      | none => []) ++ acc) []
  ⟨others ++ dummies⟩

/-- `astype(int)` on one cell: integers pass through, booleans become
0/1, integer-parseable strings parse, anything else raises. -/
def castIntCell (c : Cell) : Except PError Int :=
  match c with
  | .num n => .ok n
  | .bool b => .ok (if b then 1 else 0)
  | .str s => match parseIntStr s with
    | some n => .ok n
    | none => .error (.castError (.str s))
  | .null => .error (.castError .null)

/-- Decidable test that `astype(int)` succeeds on one cell. -/
def castOkB (c : Cell) : Bool :=
  match castIntCell c with
  | .ok _ => true
  | .error _ => false

/-- `astype(int)` on a whole column: first failing cell raises. -/
def castIntList : List Cell → Except PError (List Int)
  | [] => .ok []
  | c :: rest =>
    match castIntCell c with
    | .error e => .error e
    | .ok n =>
      match castIntList rest with
      | .error e => .error e
      | .ok ns => .ok (n :: ns)

/-- Step 6 of `process`: verify `is_claim` exists (else raise the
missing-target `ValueError`), split it out as `y = data[target].astype(int)`,
and return the remaining columns as `X`. -/
def targetExtract (d : DataFrame) : Except PError (DataFrame × List Int) :=
  match d.lookup "is_claim" with
  | none => .error (.missingColumn "is_claim")
  | some cells =>
    match castIntList cells with
    | .error e => .error e
    | .ok ys => .ok (d.dropColumn "is_claim", ys)

/-- `InsurancePreprocessor.process`: the full pipeline on the value of the
input frame (the Python code first takes `data = df.copy()` and applies
every step to the copy; `processHeap` below additionally tracks the object
graph). -/
def process (df : DataFrame) : Except PError (DataFrame × List Int) :=
  match ordinalEncode (floatConvert (booleanConvert (dropIdentifiers df))) with
  | .error e => .error e
  | .ok d4 => targetExtract (get_dummies d4)

/-! ## Object-level semantics of `process` (for the no-mutation contract)

The Python code manipulates heap objects: `data = df.copy()` allocates a
fresh object, the in-place operations of steps 1–4 (`drop(..., inplace=True)`,
column assignments) write to that copy, step 5 rebinds `data` to the new
frame returned by `pd.get_dummies`, and step 6 builds new `X` and `y`
objects.  `processHeap` runs the same pipeline over an explicit heap of
objects so that the claim "the input table is never mutated and the
results are new objects" is about which heap slots are written. -/

/-- A heap object: a dataframe or an extracted label series. -/
inductive PObj where
  | frame (d : DataFrame)
  | series (ys : List Int)
deriving DecidableEq

/-- A heap: object ids bound to objects (most recent binding wins). -/
def Heap : Type := List (Nat × PObj)

/-- Read an object from the heap. -/
def heapGet (h : Heap) (i : Nat) : Option PObj :=
  alookup i h

/-- Write an object to the heap (shadowing any previous binding). -/
def heapSet (h : Heap) (i : Nat) (v : PObj) : Heap :=
  (i, v) :: h

/-- An id strictly larger than every id bound in the heap (allocation). -/
def freshId (h : Heap) : Nat :=
  (h.map Prod.fst).foldr max 0 + 1

/-- `InsurancePreprocessor.process` with the object graph explicit: read
the input frame at `i`, copy it to a fresh object `j`, run steps 1–4
writing each in-place mutation to `j`, bind the `get_dummies` result to a
fresh object, and store the returned `X` and `y` in fresh objects; the
result is the pair of object ids of `(X, y)` (or the raised error) plus
the final heap.  No step ever writes to `i`. -/
def processHeap (h : Heap) (i : Nat) : Except PError (Nat × Nat) × Heap :=
  match heapGet h i with
  | some (.frame df) =>
    match ordinalEncode (floatConvert (booleanConvert (dropIdentifiers df))) with
    | .error e =>
      (.error e,
        heapSet (heapSet (heapSet (heapSet h (freshId h) (.frame df))
          (freshId h) (.frame (dropIdentifiers df)))
          (freshId h) (.frame (booleanConvert (dropIdentifiers df))))
          (freshId h) (.frame (floatConvert (booleanConvert (dropIdentifiers df)))))
    | .ok d4 =>
      match targetExtract (get_dummies d4) with
      | .error e =>
        (.error e,
          heapSet (heapSet (heapSet (heapSet (heapSet (heapSet h (freshId h) (.frame df))
            (freshId h) (.frame (dropIdentifiers df)))
            (freshId h) (.frame (booleanConvert (dropIdentifiers df))))
            (freshId h) (.frame (floatConvert (booleanConvert (dropIdentifiers df)))))
            (freshId h) (.frame d4))
            (freshId h + 1) (.frame (get_dummies d4)))
      | .ok Xy =>
        (.ok (freshId h + 2, freshId h + 3),
          heapSet (heapSet (heapSet (heapSet (heapSet (heapSet (heapSet (heapSet h
            (freshId h) (.frame df))
            (freshId h) (.frame (dropIdentifiers df)))
            (freshId h) (.frame (booleanConvert (dropIdentifiers df))))
            (freshId h) (.frame (floatConvert (booleanConvert (dropIdentifiers df)))))
            (freshId h) (.frame d4))
            (freshId h + 1) (.frame (get_dummies d4)))
            (freshId h + 2) (.frame Xy.1))
            (freshId h + 3) (.series Xy.2))
  | _ => (.error (.missingColumn "is_claim"), h)

/-! ## `scaler_factory.py` — the scaler registry -/

/-- Python `str.lower()` (modelled character-wise over the ASCII range,
which covers every registry key the code uses). -/
def pyLower (s : String) : String :=
  ⟨s.data.map Char.toLower⟩

/-- A scaler class stored in the registry: the four built-ins plus
user-registered classes (tagged by an id). -/
inductive ScalerClass where
  | noScaler
  | standardScaler
  | minMaxScaler
  | robustScaler
  | custom (id : Nat)
deriving DecidableEq

/-- A scaler instance: `scaler_class()` constructs a fresh instance of
the registered class. -/
structure ScalerInstance where
  cls : ScalerClass
deriving DecidableEq

/-- The error a factory raises on an unknown name: a `ValueError` whose
message interpolates the requested (already lower-cased) name and the
comma-joined list of currently registered names. -/
inductive FactoryError where
  | unknown (requested : String) (available : List String)
deriving DecidableEq

/-- The mutable class-level state of `ScalerFactory`:
`_scaler_registry` and `_descriptions`. -/
structure ScalerFactoryState where
  scalerRegistry : List (String × ScalerClass)
  descriptions : List (String × String)
deriving DecidableEq

/-- The initial `_scaler_registry` and `_descriptions` dictionaries. -/
def defaultScalerState : ScalerFactoryState :=
  { scalerRegistry :=
      [("none", .noScaler), ("standard", .standardScaler),
       ("minmax", .minMaxScaler), ("robust", .robustScaler)],
    descriptions :=
      [("none", "No scaling (pass-through)"),
       ("standard", "StandardScaler: Z-score normalization (mean=0, std=1)"),
       ("minmax", "MinMaxScaler: Scale features to [0, 1] range"),
       ("robust", "RobustScaler: Scale using median and IQR (robust to outliers)")] }

/-- `ScalerFactory.create_scaler`: lower-case the requested type, raise a
`ValueError` naming it and listing the registered names when it is not a
registry key, otherwise instantiate the registered class. -/
def create_scaler (st : ScalerFactoryState) (scalerType : String) : Except FactoryError ScalerInstance :=
  match alookup (pyLower scalerType) st.scalerRegistry with
  | none => .error (.unknown (pyLower scalerType) (st.scalerRegistry.map Prod.fst))
  | some cls => .ok ⟨cls⟩

/-- `ScalerFactory.get_description`: `cls._descriptions.get(scaler_type, "Unknown scaler")`
— a plain dict lookup with a default, without lower-casing. -/
def get_description (st : ScalerFactoryState) (scalerType : String) : String :=
  (alookup scalerType st.descriptions).getD "Unknown scaler"

/-- `ScalerFactory.register_scaler`: store the class under `name` (a dict
assignment, overwriting any previous entry) and store
`description or name` as its description. -/
def register_scaler (st : ScalerFactoryState) (name : String) (scalerClass : ScalerClass)
    (description : String) : ScalerFactoryState :=
  { scalerRegistry := aset name scalerClass st.scalerRegistry,
    descriptions := aset name (if description = "" then name else description) st.descriptions }

/-- `ScalerFactory.list_available_scalers`: the registry keys in
insertion order. -/
def list_available_scalers (st : ScalerFactoryState) : List String :=
  st.scalerRegistry.map Prod.fst

/-! ## `sampling_strategy.py` — resampling strategies and their factory -/

/-- A strategy class stored in `_strategy_registry`. -/
inductive StrategyClass where
  | noSampling
  | randomOversampling
  | smote
  | adasyn
  | custom (id : Nat)
deriving DecidableEq

/-- A constructed strategy instance: its class plus the constructor
arguments stored on `self` (`NoSamplingStrategy` is constructed without
parameters, so its fields are absent). -/
structure StrategyInstance where
  cls : StrategyClass
  samplingStrategy : Option String
  randomState : Option Int
deriving DecidableEq

/-- The class-level `_strategy_registry` of `SamplingStrategyFactory`. -/
def defaultStrategyRegistry : List (String × StrategyClass) :=
  [("none", .noSampling), ("random", .randomOversampling),
   ("smote", .smote), ("adasyn", .adasyn)]

/-- `SamplingStrategyFactory.create_strategy`: lower-case the method
name, raise a `ValueError` naming it and listing the registered methods
when unknown; instantiate `NoSamplingStrategy` without parameters when
the method is `none`, and every other class with
`(sampling_strategy, random_state)`. -/
def create_strategy (registry : List (String × StrategyClass)) (method : String)
    (samplingStrategy : String) (randomState : Option Int) :
    Except FactoryError StrategyInstance :=
  match alookup (pyLower method) registry with
  | none => .error (.unknown (pyLower method) (registry.map Prod.fst))
  | some cls =>
    if pyLower method = "none" then .ok ⟨cls, none, none⟩
    else .ok ⟨cls, some samplingStrategy, randomState⟩

/-- Modelled from the spec: the behaviour of the imblearn samplers
(`RandomOverSampler`, `SMOTE`, `ADASYN`), whose code is outside this
repository.  Per the spec, a sampler's `fit_resample` output is a
function of the sampler's constructor parameters and its input
(`identical (X, y, sampling_strategy, random_state) must yield identical
resampled output`), so an arbitrary such function is passed in as an
explicit argument. -/
def FitResampleFn : Type :=
  StrategyClass → String → Option Int → List (List ℚ) → List Int → List (List ℚ) × List Int

/-- The `resample` methods of the strategy classes, with the object state
explicit: `NoSamplingStrategy.resample` returns its input unchanged; every
other strategy constructs a fresh sampler from the parameters stored on
`self` and calls its `fit_resample`.  The returned `StrategyInstance` is
the state of `self` after the call (no method writes to `self`). -/
def StrategyInstance.resample (fr : FitResampleFn) (s : StrategyInstance)
    (X : List (List ℚ)) (y : List Int) :
    (List (List ℚ) × List Int) × StrategyInstance :=
  match s.cls with
  | .noSampling => ((X, y), s)
  | c => (fr c (s.samplingStrategy.getD "minority") s.randomState X y, s)

/-! ## `models.py` — `ModelEvaluator.evaluate` -/

/-- A metric value: either a rational number or the floating-point
sentinel NaN the code substitutes when a metric is unavailable. -/
inductive MVal where
  | nan
  | val (q : ℚ)
deriving DecidableEq

/-- The dict `ModelEvaluator.evaluate` returns. -/
structure Metrics where
  Model : String
  Accuracy : MVal
  Precision : MVal
  Recall : MVal
  F1_Score : MVal
  ROC_AUC : MVal
  FNR : MVal
deriving DecidableEq

/-- Modelled from the spec: sklearn's `roc_auc_score` (external to this
repository).  It raises when the two label vectors have different lengths
or when only one class is present in `y_true`; otherwise it returns the
area under the ROC curve, computed here by the Mann–Whitney pair-counting
formula. -/
def roc_auc_score (yTrue : List Bool) (score : List ℚ) : MVal :=
  if yTrue.length = score.length ∧ true ∈ yTrue ∧ false ∈ yTrue then
    let pts := yTrue.zip score
    let pos := (pts.filter (fun p => p.1)).map Prod.snd
    let neg := (pts.filter (fun p => !p.1)).map Prod.snd
    let numer := (pos.map (fun a =>
      ((neg.map (fun b => if a > b then (1 : ℚ) else if a = b then 1/2 else 0)).foldr (· + ·) 0))).foldr (· + ·) 0
    .val (numer / ((pos.length : ℚ) * (neg.length : ℚ)))
  else .nan

/-- True-positive count of the 2×2 confusion matrix. -/
def TPcount (yTrue yPred : List Bool) : Nat :=
  ((yTrue.zip yPred).filter (fun p => p.1 && p.2)).length

/-- False-negative count of the 2×2 confusion matrix. -/
def FNcount (yTrue yPred : List Bool) : Nat :=
  ((yTrue.zip yPred).filter (fun p => p.1 && !p.2)).length

/-- False-positive count of the 2×2 confusion matrix. -/
def FPcount (yTrue yPred : List Bool) : Nat :=
  ((yTrue.zip yPred).filter (fun p => !p.1 && p.2)).length

/-- Modelled from the spec: sklearn `accuracy_score` (external to this
repository) — the fraction of positions where prediction equals truth. -/
def accuracy_score (yTrue yPred : List Bool) : ℚ :=
  (((yTrue.zip yPred).filter (fun p => p.1 == p.2)).length : ℚ) / (yTrue.length : ℚ)

/-- Modelled from the spec: sklearn `precision_score` with
`zero_division=0` — TP / (TP + FP), 0 when the denominator is 0. -/
def precision_score (yTrue yPred : List Bool) : ℚ :=
  if (TPcount yTrue yPred : ℚ) + (FPcount yTrue yPred : ℚ) = 0 then 0
  else (TPcount yTrue yPred : ℚ) / ((TPcount yTrue yPred : ℚ) + (FPcount yTrue yPred : ℚ))

/-- Modelled from the spec: sklearn `recall_score` with its default
zero-division behaviour (warn and return 0) — TP / (TP + FN). -/
def recall_score (yTrue yPred : List Bool) : ℚ :=
  if (TPcount yTrue yPred : ℚ) + (FNcount yTrue yPred : ℚ) = 0 then 0
  else (TPcount yTrue yPred : ℚ) / ((TPcount yTrue yPred : ℚ) + (FNcount yTrue yPred : ℚ))

/-- Modelled from the spec: sklearn `f1_score` — the harmonic mean of
precision and recall, 0 when both are 0 (default zero-division). -/
def f1_score (yTrue yPred : List Bool) : ℚ :=
  if precision_score yTrue yPred + recall_score yTrue yPred = 0 then 0
  else 2 * precision_score yTrue yPred * recall_score yTrue yPred /
    (precision_score yTrue yPred + recall_score yTrue yPred)

/-- `ModelEvaluator.evaluate`.  The outer `try` computes the confusion
matrix and unpacks `TN, FP, FN, TP = cm.ravel()`, which succeeds exactly
when the label vectors have equal length and both classes occur among
them (a 2×2 matrix); on any failure the outer `except` returns the
all-NaN placeholder dict.  The inner `try` computes ROC-AUC from
`y_score` when given, else from `y_pred`, substituting NaN when sklearn
raises (e.g. a single-class `y_true`).  The remaining dict entries are
the sklearn metric calls and the hand-written
`FN / (FN + TP) if (FN + TP) > 0 else 0`. -/
def evaluate (yTrue yPred : List Bool) (modelName : String) (yScore : Option (List ℚ)) : Metrics :=
  if yTrue.length = yPred.length ∧ true ∈ yTrue ++ yPred ∧ false ∈ yTrue ++ yPred then
    { Model := modelName,
      Accuracy := .val (accuracy_score yTrue yPred),
      Precision := .val (precision_score yTrue yPred),
      Recall := .val (recall_score yTrue yPred),
      F1_Score := .val (f1_score yTrue yPred),
      ROC_AUC :=
        match yScore with
        | some sc => roc_auc_score yTrue sc
        | none => roc_auc_score yTrue (yPred.map (fun b => if b then 1 else 0)),
      FNR := .val (if (FNcount yTrue yPred : ℚ) + (TPcount yTrue yPred : ℚ) > 0
        then (FNcount yTrue yPred : ℚ) / ((FNcount yTrue yPred : ℚ) + (TPcount yTrue yPred : ℚ))
        else 0) }
  else
    { Model := modelName, Accuracy := .nan, Precision := .nan, Recall := .nan,
      F1_Score := .nan, ROC_AUC := .nan, FNR := .nan }

end PMBC

deriving instance DecidableEq for Except

namespace PMBC

/-! ## Association-list lemmas -/

theorem alookup_eq_none {α β : Type} [DecidableEq α] (a : α) (l : List (α × β))
    (h : ∀ p ∈ l, p.1 ≠ a) : alookup a l = none := by
  induction l with
  | nil => rfl
  | cons p t ih =>
    have hp := h p (List.mem_cons_self p t)
    simp only [alookup, if_neg hp]
    exact ih (fun q hq => h q (List.mem_cons_of_mem p hq))

theorem alookup_append_some {α β : Type} [DecidableEq α] (a : α) (l₁ l₂ : List (α × β))
    (v : β) (h : alookup a l₁ = some v) : alookup a (l₁ ++ l₂) = some v := by
  induction l₁ with
  | nil => simp [alookup] at h
  | cons p t ih =>
    by_cases hp : p.1 = a
    · simp only [alookup, if_pos hp] at h ⊢
      simpa using h
    · simp only [alookup, if_neg hp] at h ⊢
      exact ih h

theorem alookup_append_none {α β : Type} [DecidableEq α] (a : α) (l₁ l₂ : List (α × β))
    (h : alookup a l₁ = none) : alookup a (l₁ ++ l₂) = alookup a l₂ := by
  induction l₁ with
  | nil => rfl
  | cons p t ih =>
    by_cases hp : p.1 = a
    · simp only [alookup, if_pos hp] at h
      simp at h
    · simp only [alookup, if_neg hp] at h ⊢
      exact ih h

theorem alookup_filter {α β : Type} [DecidableEq α] (a : α) (l : List (α × β))
    (pred : α × β → Bool) (h : ∀ p ∈ l, p.1 = a → pred p = true) :
    alookup a (l.filter pred) = alookup a l := by
  induction l with
  | nil => rfl
  | cons p t ih =>
    have ht := fun q hq => h q (List.mem_cons_of_mem p hq)
    by_cases hp : p.1 = a
    · have hkeep := h p (List.mem_cons_self p t) hp
      simp only [List.filter_cons, hkeep, if_pos, alookup, if_pos hp]
    · cases hpred : pred p
      · simp only [List.filter_cons, hpred, alookup, if_neg hp]
        simp only [Bool.false_eq_true, if_false]
        exact ih ht
      · simp only [List.filter_cons, hpred, if_pos, alookup, if_neg hp]
        exact ih ht

theorem alookup_mem {α β : Type} [DecidableEq α] {a : α} {l : List (α × β)} {v : β}
    (h : alookup a l = some v) : (a, v) ∈ l := by
  induction l with
  | nil => simp [alookup] at h
  | cons p t ih =>
    by_cases hp : p.1 = a
    · simp only [alookup, if_pos hp] at h
      obtain ⟨x, y⟩ := p
      obtain rfl : x = a := hp
      obtain rfl : y = v := by simpa using h
      exact List.mem_cons_self _ _
    · simp only [alookup, if_neg hp] at h
      exact List.mem_cons_of_mem p (ih h)

theorem alookup_aset_self {α β : Type} [DecidableEq α] (a : α) (v : β) (l : List (α × β)) :
    alookup a (aset a v l) = some v := by
  unfold aset
  by_cases hs : (alookup a l).isSome
  · simp only [hs, if_pos]
    induction l with
    | nil => simp [alookup] at hs
    | cons p t ih =>
      by_cases hp : p.1 = a
      · simp [List.map_cons, if_pos hp, alookup]
      · simp only [alookup, if_neg hp] at hs
        simp only [List.map_cons, if_neg hp, alookup, if_neg hp]
        exact ih hs
  · simp only [hs, if_false, Bool.false_eq_true]
    have hnone : alookup a l = none := by
      cases hl : alookup a l
      · rfl
      · rw [hl] at hs; simp at hs
    rw [alookup_append_none a l _ hnone]
    simp [alookup]

theorem alookup_map_replace {α β : Type} [DecidableEq α] (a a' : α) (v : β)
    (l : List (α × β)) (h : a ≠ a') :
    alookup a (l.map (fun p => if p.1 = a' then (a', v) else p)) = alookup a l := by
  induction l with
  | nil => rfl
  | cons p t ih =>
    by_cases hp : p.1 = a'
    · have hpa : ¬ p.1 = a := fun hc => h (hc.symm.trans hp)
      simp only [List.map_cons, if_pos hp, alookup, if_neg (fun hc : a' = a => h hc.symm),
        if_neg hpa]
      exact ih
    · simp only [List.map_cons, if_neg hp, alookup]
      by_cases hpa : p.1 = a
      · simp only [if_pos hpa]
      · simp only [if_neg hpa]
        exact ih

theorem alookup_aset_ne {α β : Type} [DecidableEq α] (a a' : α) (v : β) (l : List (α × β))
    (h : a ≠ a') : alookup a (aset a' v l) = alookup a l := by
  unfold aset
  by_cases hs : (alookup a' l).isSome
  · simp only [hs, if_pos]
    exact alookup_map_replace a a' v l h
  · simp only [hs, if_false, Bool.false_eq_true]
    cases hl : alookup a l
    · rw [alookup_append_none a l _ hl]
      exact alookup_eq_none a _ (by intro p hp; simp at hp; rw [hp]; exact fun hc => h hc.symm)
    · exact alookup_append_some a l _ _ hl

/-! ## Column-lookup preservation through the pipeline steps -/

theorem lookup_dropColumn_ne (c c' : String) (d : DataFrame) (h : c ≠ c') :
    (d.dropColumn c').lookup c = d.lookup c := by
  unfold DataFrame.dropColumn DataFrame.lookup
  exact alookup_filter c d.cols _ (fun p _ hp => by simp [hp, h])

theorem lookup_dropColumn_self (c : String) (d : DataFrame) :
    (d.dropColumn c).lookup c = none := by
  unfold DataFrame.dropColumn DataFrame.lookup
  refine alookup_eq_none c _ ?_
  intro p hp
  have := List.of_mem_filter hp
  simpa using this

theorem lookup_mapColumn_ne (c c' : String) (f : Cell → Cell) (d : DataFrame) (h : c ≠ c') :
    (d.mapColumn c' f).lookup c = d.lookup c := by
  unfold DataFrame.mapColumn DataFrame.lookup
  induction d.cols with
  | nil => rfl
  | cons p t ih =>
    by_cases hp : p.1 = c'
    · have hpa : ¬ p.1 = c := fun hc => h (hc.symm.trans hp)
      simp only [List.map_cons, if_pos hp, alookup, if_neg hpa]
      exact ih
    · simp only [List.map_cons, if_neg hp, alookup]
      by_cases hpa : p.1 = c
      · simp only [if_pos hpa]
      · simp only [if_neg hpa]
        exact ih

theorem lookup_mapColumn_self (c : String) (f : Cell → Cell) (d : DataFrame) :
    (d.mapColumn c f).lookup c = (d.lookup c).map (List.map f) := by
  unfold DataFrame.mapColumn DataFrame.lookup
  induction d.cols with
  | nil => rfl
  | cons p t ih =>
    by_cases hp : p.1 = c
    · simp only [List.map_cons, if_pos hp, alookup, if_pos hp]
      rfl
    · simp only [List.map_cons, if_neg hp, alookup, if_neg hp]
      exact ih

theorem lookup_mapIfPresent_ne (c c' : String) (f : Cell → Cell) (d : DataFrame) (h : c ≠ c') :
    (mapIfPresent c' f d).lookup c = d.lookup c := by
  unfold mapIfPresent
  by_cases hc : d.hasCol c'
  · rw [if_pos hc]
    exact lookup_mapColumn_ne c c' f d h
  · rw [if_neg hc]

theorem lookup_mapIfPresent_self (c : String) (f : Cell → Cell) (d : DataFrame)
    (cells : List Cell) (h : d.lookup c = some cells) :
    (mapIfPresent c f d).lookup c = some (cells.map f) := by
  unfold mapIfPresent
  have hc : d.hasCol c := by unfold DataFrame.hasCol; rw [h]; rfl
  rw [if_pos hc, lookup_mapColumn_self, h]
  rfl

theorem lookup_foldMap_ne (c : String) (L : List String) (f : Cell → Cell) (d : DataFrame)
    (h : c ∉ L) :
    (L.foldl (fun acc x => mapIfPresent x f acc) d).lookup c = d.lookup c := by
  induction L generalizing d with
  | nil => rfl
  | cons x t ih =>
    simp only [List.foldl_cons]
    rw [ih _ (fun hc => h (List.mem_cons_of_mem x hc))]
    exact lookup_mapIfPresent_ne c x f d (fun hc => h (hc ▸ List.mem_cons_self x t))

theorem lookup_foldMap_self (c : String) (L : List String) (f : Cell → Cell) (d : DataFrame)
    (cells : List Cell) (hmem : c ∈ L) (hnd : L.Nodup) (h : d.lookup c = some cells) :
    (L.foldl (fun acc x => mapIfPresent x f acc) d).lookup c = some (cells.map f) := by
  induction L generalizing d with
  | nil => cases hmem
  | cons x t ih =>
    simp only [List.foldl_cons]
    rcases List.mem_cons.mp hmem with hx | hx
    · subst hx
      have hnotin : c ∉ t := (List.nodup_cons.mp hnd).1
      rw [lookup_foldMap_ne c t f _ hnotin]
      exact lookup_mapIfPresent_self c f d cells h
    · have hne : c ≠ x := by
        intro hc
        exact (List.nodup_cons.mp hnd).1 (hc ▸ hx)
      exact ih _ hx (List.nodup_cons.mp hnd).2
        ((lookup_mapIfPresent_ne c x f d hne).trans h)

theorem lookup_dropIdentifiers_ne (c : String) (d : DataFrame) (h : c ≠ "policy_id") :
    (dropIdentifiers d).lookup c = d.lookup c := by
  unfold dropIdentifiers
  by_cases hc : d.hasCol "policy_id"
  · rw [if_pos hc]
    exact lookup_dropColumn_ne c _ d h
  · rw [if_neg hc]

theorem lookup_booleanConvert_ne (c : String) (d : DataFrame) (h : c ∉ booleanCols) :
    (booleanConvert d).lookup c = d.lookup c :=
  lookup_foldMap_ne c booleanCols normalizeBool d h

theorem lookup_floatConvert_ne (c : String) (d : DataFrame) (h : c ∉ floatCols) :
    (floatConvert d).lookup c = d.lookup c :=
  lookup_foldMap_ne c floatCols toNumericCell d h

theorem lookup_assignColumn_ne (c c' : String) (cells : List Cell) (d : DataFrame)
    (h : c ≠ c') : (d.assignColumn c' cells).lookup c = d.lookup c := by
  unfold DataFrame.assignColumn DataFrame.lookup
  exact alookup_aset_ne c c' cells d.cols h

theorem ordinalEncode_lookup_ne (c : String) (d d' : DataFrame)
    (h1 : c ≠ "ncap_rating") (h2 : c ≠ "NCAP_Rating")
    (hok : ordinalEncode d = .ok d') : d'.lookup c = d.lookup c := by
  unfold ordinalEncode at hok
  cases hnc : d.lookup "ncap_rating" with
  | none =>
    rw [hnc] at hok
    cases hok
    rfl
  | some cells =>
    rw [hnc] at hok
    by_cases he : (cells.map astypeStr).isEmpty
    · simp only [he, if_pos] at hok
      cases hok
    · simp only [he, Bool.false_eq_true, if_false] at hok
      cases hf : (cells.map astypeStr).find? (fun s => !(ncapCategories.contains s)) with
      | some bad => rw [hf] at hok; cases hok
      | none =>
        rw [hf] at hok
        cases hok
        rw [lookup_dropColumn_ne c _ _ h1, lookup_assignColumn_ne c _ _ _ h2]

theorem ordinalEncode_ok_of_ncapOkB (d : DataFrame) (h : ncapOkB d = true) :
    ∃ d', ordinalEncode d = .ok d' := by
  unfold ncapOkB at h
  unfold ordinalEncode
  cases hnc : d.lookup "ncap_rating" with
  | none => exact ⟨d, rfl⟩
  | some cells =>
    rw [hnc] at h
    replace h : (!cells.isEmpty && cells.all fun c => ncapCategories.contains (astypeStr c)) = true := h
    have hE : cells.isEmpty = false := by
      cases hcells : cells.isEmpty
      · rfl
      · rw [hcells] at h; simp at h
    have hAll : ∀ x ∈ cells, ncapCategories.contains (astypeStr x) = true := by
      intro x hx
      have := (Bool.and_eq_true _ _).mp h
      exact List.all_eq_true.mp this.2 x hx
    have hE' : (cells.map astypeStr).isEmpty = false := by
      cases cells with
      | nil => simp at hE
      | cons a t => rfl
    have hf : (cells.map astypeStr).find? (fun s => !(ncapCategories.contains s)) = none := by
      apply List.find?_eq_none.mpr
      intro s hs
      rcases List.mem_map.mp hs with ⟨x, hx, rfl⟩
      simpa using hAll x hx
    simp only [hE', Bool.false_eq_true, if_false, hf]
    exact ⟨_, rfl⟩

/-! ## `get_dummies` lemmas -/

theorem take_len_append {γ : Type} (l₁ l₂ : List γ) : (l₁ ++ l₂).take l₁.length = l₁ := by
  induction l₁ with
  | nil => rfl
  | cons a t ih => simp [ih]

theorem str_data_append (a b : String) : (a ++ b).data = a.data ++ b.data := rfl

/-- No indicator column generated for a categorical column can be named
`is_claim`: every generated name extends a registered categorical column
name with an underscore. -/
theorem cat_name_ne_target (col s : String) (hcol : col ∈ categoricalCols) :
    col ++ "_" ++ s ≠ "is_claim" := by
  intro heq
  have h2 : col.data ++ ("_".data ++ s.data) = "is_claim".data := by
    rw [← List.append_assoc, ← str_data_append, ← str_data_append, heq]
  have h3 : ("is_claim".data).take col.data.length = col.data := by
    rw [← h2]
    exact take_len_append _ _
  have hcol' : col ∈ ["transmission_type", "cylinder", "gear_box", "rear_brakes_type",
    "steering_type", "fuel_type", "make", "segment", "model",
    "engine_type", "max_torque", "max_power", "area_cluster", "displacement"] := hcol
  fin_cases hcol' <;> revert h3 <;> decide

theorem name_mem_dummiesForColumn (col : String) (cells : List Cell) (p : String × List Cell)
    (hp : p ∈ dummiesForColumn col cells) : ∃ s, p.1 = col ++ "_" ++ s := by
  unfold dummiesForColumn at hp
  rcases List.mem_map.mp hp with ⟨cat, _, rfl⟩
  exact ⟨astypeStr cat, rfl⟩

theorem len_mem_dummiesForColumn (col : String) (cells : List Cell) (p : String × List Cell)
    (hp : p ∈ dummiesForColumn col cells) : p.2.length = cells.length := by
  unfold dummiesForColumn at hp
  rcases List.mem_map.mp hp with ⟨cat, _, rfl⟩
  simp

theorem mem_foldr_append {γ : Type} (g : String → List γ) (L : List String) (p : γ)
    (h : p ∈ L.foldr (fun c acc => g c ++ acc) []) : ∃ c ∈ L, p ∈ g c := by
  induction L with
  | nil => cases h
  | cons x t ih =>
    rcases List.mem_append.mp h with hx | ht
    · exact ⟨x, List.mem_cons_self x t, hx⟩
    · rcases ih ht with ⟨c, hc, hp⟩
      exact ⟨c, List.mem_cons_of_mem x hc, hp⟩

theorem lookup_get_dummies_eq (c : String) (d : DataFrame) (cells : List Cell)
    (hcat : c ∉ categoricalCols) (hc : d.lookup c = some cells) :
    (get_dummies d).lookup c = some cells := by
  unfold get_dummies DataFrame.lookup
  apply alookup_append_some
  rw [alookup_filter]
  · exact hc
  · intro p _ hpc
    rw [hpc]
    have : (c ∉ categoricalCols ∨ DataFrame.hasCol c d = false) := Or.inl hcat
    simpa using this

theorem lookup_get_dummies_target_none (d : DataFrame)
    (h : d.lookup "is_claim" = none) :
    (get_dummies d).lookup "is_claim" = none := by
  unfold get_dummies DataFrame.lookup
  have hoth : alookup "is_claim"
      (d.cols.filter (fun p => decide (p.1 ∉ categoricalCols.filter (fun c => d.hasCol c)))) = none := by
    rw [alookup_filter]
    · exact h
    · intro p _ hpc
      rw [hpc]
      have : ("is_claim" ∉ categoricalCols ∨ DataFrame.hasCol "is_claim" d = false) :=
        Or.inl (by decide)
      simpa using this
  rw [alookup_append_none _ _ _ hoth]
  apply alookup_eq_none
  intro p hp
  rcases mem_foldr_append _ _ _ hp with ⟨c, hcL, hpc⟩
  cases hl : alookup c d.cols with
  | none => rw [hl] at hpc; cases hpc
  | some cs =>
    rw [hl] at hpc
    rcases name_mem_dummiesForColumn c cs p hpc with ⟨s, hs⟩
    rw [hs]
    exact cat_name_ne_target c s (List.mem_of_mem_filter hcL)

/-! ## `astype(int)` lemmas -/

theorem castIntList_length (cells : List Cell) (ys : List Int)
    (h : castIntList cells = .ok ys) : ys.length = cells.length := by
  induction cells generalizing ys with
  | nil =>
    simp only [castIntList] at h
    cases h
    rfl
  | cons c t ih =>
    simp only [castIntList] at h
    cases hc : castIntCell c with
    | error e => rw [hc] at h; cases h
    | ok n =>
      rw [hc] at h
      cases ht : castIntList t with
      | error e => rw [ht] at h; cases h
      | ok ns =>
        rw [ht] at h
        cases h
        simp [ih ns ht]

theorem castIntList_ok_of_all (cells : List Cell) (h : cells.all castOkB = true) :
    ∃ ys, castIntList cells = .ok ys := by
  induction cells with
  | nil => exact ⟨[], rfl⟩
  | cons c t ih =>
    have hc : castOkB c = true := (List.all_eq_true.mp h) c (List.mem_cons_self c t)
    have ht : t.all castOkB = true :=
      List.all_eq_true.mpr (fun x hx => (List.all_eq_true.mp h) x (List.mem_cons_of_mem c hx))
    rcases ih ht with ⟨ns, hns⟩
    unfold castOkB at hc
    cases hcc : castIntCell c with
    | error e => rw [hcc] at hc; simp at hc
    | ok n =>
      refine ⟨n :: ns, ?_⟩
      simp only [castIntList, hcc, hns]

/-! ## Rectangularity (row-count) preservation -/

theorem isRect_dropColumn (c : String) (d : DataFrame) (n : Nat) (h : d.IsRect n) :
    (d.dropColumn c).IsRect n :=
  fun p hp => h p (List.mem_of_mem_filter hp)

theorem isRect_mapColumn (c : String) (f : Cell → Cell) (d : DataFrame) (n : Nat)
    (h : d.IsRect n) : (d.mapColumn c f).IsRect n := by
  intro p hp
  rcases List.mem_map.mp hp with ⟨q, hq, rfl⟩
  by_cases hqc : q.1 = c
  · simp only [if_pos hqc, List.length_map]
    exact h q hq
  · simp only [if_neg hqc]
    exact h q hq

theorem isRect_mapIfPresent (c : String) (f : Cell → Cell) (d : DataFrame) (n : Nat)
    (h : d.IsRect n) : (mapIfPresent c f d).IsRect n := by
  unfold mapIfPresent
  by_cases hc : d.hasCol c
  · rw [if_pos hc]; exact isRect_mapColumn c f d n h
  · rw [if_neg hc]; exact h

theorem isRect_foldMap (L : List String) (f : Cell → Cell) (d : DataFrame) (n : Nat)
    (h : d.IsRect n) : (L.foldl (fun acc x => mapIfPresent x f acc) d).IsRect n := by
  induction L generalizing d with
  | nil => exact h
  | cons x t ih => exact ih _ (isRect_mapIfPresent x f d n h)

theorem isRect_dropIdentifiers (d : DataFrame) (n : Nat) (h : d.IsRect n) :
    (dropIdentifiers d).IsRect n := by
  unfold dropIdentifiers
  by_cases hc : d.hasCol "policy_id"
  · rw [if_pos hc]; exact isRect_dropColumn _ d n h
  · rw [if_neg hc]; exact h

theorem isRect_assignColumn (c : String) (cells : List Cell) (d : DataFrame) (n : Nat)
    (h : d.IsRect n) (hlen : cells.length = n) : (d.assignColumn c cells).IsRect n := by
  intro p hp
  unfold DataFrame.assignColumn aset at hp
  by_cases hs : (alookup c d.cols).isSome
  · rw [if_pos hs] at hp
    rcases List.mem_map.mp hp with ⟨q, hq, rfl⟩
    by_cases hqc : q.1 = c
    · simp only [if_pos hqc]
      exact hlen
    · simp only [if_neg hqc]
      exact h q hq
  · rw [if_neg hs] at hp
    rcases List.mem_append.mp hp with hq | hq
    · exact h p hq
    · rcases List.mem_singleton.mp hq with rfl
      exact hlen

theorem isRect_ordinalEncode (d d' : DataFrame) (n : Nat)
    (hok : ordinalEncode d = .ok d') (h : d.IsRect n) : d'.IsRect n := by
  unfold ordinalEncode at hok
  cases hnc : d.lookup "ncap_rating" with
  | none =>
    rw [hnc] at hok
    cases hok
    exact h
  | some cells =>
    have hlen : cells.length = n := h _ (alookup_mem hnc)
    rw [hnc] at hok
    by_cases he : (cells.map astypeStr).isEmpty
    · simp only [he, if_pos] at hok
      cases hok
    · simp only [he, Bool.false_eq_true, if_false] at hok
      cases hf : (cells.map astypeStr).find? (fun s => !(ncapCategories.contains s)) with
      | some bad => rw [hf] at hok; cases hok
      | none =>
        rw [hf] at hok
        cases hok
        apply isRect_dropColumn
        apply isRect_assignColumn _ _ _ _ h
        simp [hlen]

theorem isRect_get_dummies (d : DataFrame) (n : Nat) (h : d.IsRect n) :
    (get_dummies d).IsRect n := by
  intro p hp
  unfold get_dummies at hp
  rcases List.mem_append.mp hp with hq | hq
  · exact h p (List.mem_of_mem_filter hq)
  · rcases mem_foldr_append _ _ _ hq with ⟨c, _, hpc⟩
    cases hl : DataFrame.lookup c d with
    | none => rw [hl] at hpc; cases hpc
    | some cs =>
      rw [hl] at hpc
      rw [len_mem_dummiesForColumn c cs p hpc]
      exact h _ (alookup_mem hl)

theorem notMem_names_dropColumn (c : String) (d : DataFrame) :
    c ∉ (d.dropColumn c).names := by
  intro hmem
  rcases List.mem_map.mp hmem with ⟨p, hp, hpc⟩
  have := List.of_mem_filter hp
  rw [hpc] at this
  simp at this

/-! ## Heap lemmas -/

theorem heapGet_heapSet_ne (h : Heap) (i j : Nat) (v : PObj) (hne : i ≠ j) :
    heapGet (heapSet h j v) i = heapGet h i := by
  unfold heapGet heapSet
  simp only [alookup, if_neg (fun hc : j = i => hne hc.symm)]

theorem heapGet_heapSet_self (h : Heap) (i : Nat) (v : PObj) :
    heapGet (heapSet h i v) i = some v := by
  unfold heapGet heapSet
  simp [alookup]

theorem lt_freshId_of_get (h : Heap) (i : Nat) (v : PObj)
    (hg : heapGet h i = some v) : i < freshId h := by
  unfold freshId
  have hle : i ≤ (h.map Prod.fst).foldr max 0 := by
    induction h with
    | nil => simp [heapGet, alookup] at hg
    | cons p t ih =>
      unfold heapGet alookup at hg
      by_cases hp : p.1 = i
      · simp only [List.map_cons, List.foldr_cons]
        rw [← hp]
        exact Nat.le_max_left _ _
      · rw [if_neg hp] at hg
        simp only [List.map_cons, List.foldr_cons]
        exact le_trans (ih hg) (Nat.le_max_right _ _)
  omega

/-! ## Pipeline composition helpers -/

theorem lookup_pre3 (c : String) (df : DataFrame) (h1 : c ≠ "policy_id")
    (h2 : c ∉ booleanCols) (h3 : c ∉ floatCols) :
    (floatConvert (booleanConvert (dropIdentifiers df))).lookup c = df.lookup c := by
  rw [lookup_floatConvert_ne c _ h3, lookup_booleanConvert_ne c _ h2,
    lookup_dropIdentifiers_ne c _ h1]

theorem ncapOkB_pre3 (df : DataFrame) :
    ncapOkB (floatConvert (booleanConvert (dropIdentifiers df))) = ncapOkB df := by
  unfold ncapOkB
  rw [lookup_pre3 _ df (by decide) (by decide) (by decide)]

theorem process_eq_of (df : DataFrame) (d4 : DataFrame)
    (ho : ordinalEncode (floatConvert (booleanConvert (dropIdentifiers df))) = .ok d4) :
    process df = targetExtract (get_dummies d4) := by
  unfold process
  rw [ho]

theorem process_ok_inv (df X : DataFrame) (y : List Int) (h : process df = .ok (X, y)) :
    ∃ d4, ordinalEncode (floatConvert (booleanConvert (dropIdentifiers df))) = .ok d4 ∧
      targetExtract (get_dummies d4) = .ok (X, y) := by
  unfold process at h
  cases ho : ordinalEncode (floatConvert (booleanConvert (dropIdentifiers df))) with
  | error e => rw [ho] at h; simp at h
  | ok d4 =>
    rw [ho] at h
    exact ⟨d4, rfl, h⟩

theorem targetExtract_ok_inv (d X : DataFrame) (y : List Int)
    (h : targetExtract d = .ok (X, y)) :
    ∃ cells, d.lookup "is_claim" = some cells ∧ castIntList cells = .ok y ∧
      X = d.dropColumn "is_claim" := by
  cases hl : d.lookup "is_claim" with
  | none => simp [targetExtract, hl] at h
  | some cells =>
    simp only [targetExtract, hl] at h
    cases hc : castIntList cells with
    | error e => rw [hc] at h; cases h
    | ok ys =>
      rw [hc] at h
      simp only [Except.ok.injEq, Prod.mk.injEq] at h
      obtain ⟨hX, hy⟩ := h
      exact ⟨cells, rfl, hy ▸ hc, hX.symm⟩

/-! ## Claim C1 -/

/-- Claim C1, counterexample: a table without the `is_claim` column whose
`ncap_rating` column holds the out-of-range value `9` makes `process`
raise the sklearn unknown-category error from step 4, not the
missing-column error naming the target column — so the claim's
"regardless of the other columns and values" is false on the code. -/
theorem C1_counterexample :
    DataFrame.lookup "is_claim" ⟨[("ncap_rating", [Cell.str "9"])]⟩ = none ∧
    process ⟨[("ncap_rating", [Cell.str "9"])]⟩ = .error (.encoderUnknownCategory "9") ∧
    PError.encoderUnknownCategory "9" ≠ PError.missingColumn "is_claim" := by
  decide

/-- Claim C1 (amended): for every input table that does not contain the
label column `is_claim` and on which the ordinal-encoding step does not
itself raise (`ncap_rating` absent, or non-empty with all values among
the declared categories), `process` raises the missing-column
`ValueError` naming the target column, regardless of the other columns
and values in the table. -/
theorem C1_missing_label_raises (df : DataFrame)
    (hmiss : df.lookup "is_claim" = none) (hncap : ncapOkB df = true) :
    process df = .error (.missingColumn "is_claim") := by
  have hncap3 : ncapOkB (floatConvert (booleanConvert (dropIdentifiers df))) = true := by
    rw [ncapOkB_pre3]
    exact hncap
  rcases ordinalEncode_ok_of_ncapOkB _ hncap3 with ⟨d4, ho⟩
  rw [process_eq_of df d4 ho]
  have h4 : d4.lookup "is_claim" = none := by
    rw [ordinalEncode_lookup_ne _ _ _ (by decide) (by decide) ho,
      lookup_pre3 _ df (by decide) (by decide) (by decide), hmiss]
  have h5 := lookup_get_dummies_target_none _ h4
  simp only [targetExtract, h5]

/-- Claim C1 witness: `process` on a concrete table with no `is_claim`
column but with valid boolean, float, ordinal and categorical columns
raises the missing-column error. -/
theorem C1_witness :
    process ⟨[("policy_id", [Cell.str "7"]), ("is_tpms", [Cell.str "Yes"]),
      ("length", [Cell.str "4000"]), ("ncap_rating", [Cell.num 4]),
      ("make", [Cell.str "m1"])]⟩ = .error (.missingColumn "is_claim") :=
  C1_missing_label_raises _ (by decide) (by decide)

/-! ## Claim C2 -/

/-- Claim C2, counterexample: a table that does contain `is_claim` but
whose `ncap_rating` column holds the out-of-range value `6` makes
`process` raise from the ordinal-encoding step (step 4) — so "only the
target-extraction step can raise" and "for every table that contains the
label column, `process` returns normally whatever values the other
columns contain" are both false on the code. -/
theorem C2_counterexample :
    DataFrame.hasCol "is_claim" ⟨[("is_claim", [Cell.num 0]), ("ncap_rating", [Cell.str "6"])]⟩ = true ∧
    process ⟨[("is_claim", [Cell.num 0]), ("ncap_rating", [Cell.str "6"])]⟩ =
      .error (.encoderUnknownCategory "6") := by
  decide

/-- Claim C2 (amended): the identifier-drop, boolean-normalization,
numeric-coercion and nominal-encoding steps never raise (they are total
functions of the table), but the ordinal-encoding step (step 4) raises on
an `ncap_rating` column that is empty or contains a value outside the
declared categories, and step 6 raises when `is_claim` is missing or not
integer-castable.  Hence every table that contains `is_claim` with
integer-castable values and on which step 4 does not raise is processed
normally, whatever values the other columns contain. -/
theorem C2_graceful_degradation (df : DataFrame) (cells : List Cell)
    (hcl : df.lookup "is_claim" = some cells) (hncap : ncapOkB df = true)
    (hcast : cells.all castOkB = true) :
    ∃ X y, process df = .ok (X, y) := by
  have hncap3 : ncapOkB (floatConvert (booleanConvert (dropIdentifiers df))) = true := by
    rw [ncapOkB_pre3]
    exact hncap
  rcases ordinalEncode_ok_of_ncapOkB _ hncap3 with ⟨d4, ho⟩
  rw [process_eq_of df d4 ho]
  have h4 : d4.lookup "is_claim" = some cells := by
    rw [ordinalEncode_lookup_ne _ _ _ (by decide) (by decide) ho,
      lookup_pre3 _ df (by decide) (by decide) (by decide), hcl]
  have h5 := lookup_get_dummies_eq _ _ _ (by decide) h4
  rcases castIntList_ok_of_all cells hcast with ⟨ys, hys⟩
  simp only [targetExtract, h5, hys]
  exact ⟨_, ys, rfl⟩

/-- Claim C2 witness: a concrete table with `is_claim` plus malformed
boolean and float values (which degrade to false / missing) is processed
without error. -/
theorem C2_witness :
    ∃ X y, process ⟨[("is_claim", [Cell.num 1, Cell.num 0]),
      ("is_esc", [Cell.str "maybe", Cell.null]),
      ("width", [Cell.str "not-a-number", Cell.null]),
      ("fuel_type", [Cell.str "CNG", Cell.str "Petrol"])]⟩ = .ok (X, y) :=
  C2_graceful_degradation _ [Cell.num 1, Cell.num 0] (by decide) (by decide) (by decide)

/-! ## Claim C7 -/

/-- Claim C7, counterexample: on a table whose `is_claim` column holds
the integer `2`, `process` returns normally with `y = [2]` — the label is
cast to integer but not to the 0/1 domain, so "y is cast to the integer
0/1 domain" is false on the code (and a table containing `is_claim` can
also still raise, e.g. on an out-of-range `ncap_rating`). -/
theorem C7_counterexample :
    process ⟨[("is_claim", [Cell.num 2])]⟩ = .ok (⟨[]⟩, [2]) ∧
    ¬ ((2 : Int) = 0 ∨ (2 : Int) = 1) := by
  decide

/-- Claim C7 (amended): whenever `process` returns `(X, y)` on a
rectangular input table, `is_claim` is not among the columns of `X`, `y`
is the integer cast of the label column (0/1 exactly when the input
labels are 0/1-valued), and `X` and `y` have equal row counts. -/
theorem C7_output_invariants (df X : DataFrame) (y : List Int) (n : Nat)
    (hrect : df.IsRect n) (hok : process df = .ok (X, y)) :
    "is_claim" ∉ X.names ∧ y.length = n ∧ ∀ p ∈ X.cols, p.2.length = y.length := by
  rcases process_ok_inv df X y hok with ⟨d4, ho, ht⟩
  rcases targetExtract_ok_inv _ X y ht with ⟨cells, hcl, hcast, hX⟩
  have hrect4 : d4.IsRect n :=
    isRect_ordinalEncode _ _ n ho
      (isRect_foldMap _ _ _ n (isRect_foldMap _ _ _ n (isRect_dropIdentifiers df n hrect)))
  have hrect5 : (get_dummies d4).IsRect n := isRect_get_dummies d4 n hrect4
  have hcellslen : cells.length = n := hrect5 _ (alookup_mem hcl)
  have hylen : y.length = n := by
    rw [castIntList_length cells y hcast, hcellslen]
  refine ⟨?_, hylen, ?_⟩
  · rw [hX]
    exact notMem_names_dropColumn _ _
  · intro p hp
    rw [hylen]
    rw [hX] at hp
    exact isRect_dropColumn _ _ n hrect5 p hp

/-- Claim C7 witness: the amended invariants hold on a concrete
two-row table. -/
theorem C7_witness :
    "is_claim" ∉ DataFrame.names ⟨[("length", [Cell.num 4000, Cell.null])]⟩ ∧
    ([1, 0] : List Int).length = 2 ∧
    ∀ p ∈ (DataFrame.cols ⟨[("length", [Cell.num 4000, Cell.null])]⟩),
      p.2.length = ([1, 0] : List Int).length :=
  C7_output_invariants
    ⟨[("is_claim", [Cell.num 1, Cell.num 0]), ("length", [Cell.str "4000", Cell.null])]⟩
    ⟨[("length", [Cell.num 4000, Cell.null])]⟩ [1, 0] 2
    (by unfold DataFrame.IsRect; decide) (by decide)

/-! ## Claim C8 -/

theorem normalizeBool_eq (c : Cell) :
    normalizeBool c = Cell.bool (decide (c = Cell.str "Yes")) := by
  unfold normalizeBool
  split
  · simp
  · simp
  · rename_i h1 h2
    have hne : ¬ c = Cell.str "Yes" := h1
    simp [hne]

/-- Claim C8: for every boolean-role column present in the input table,
`process` maps exactly the recognized affirmative label `Yes` to true and
every other value — the recognized negative label `No`, nulls, and any
unrecognized value — to false: the column of the returned `X` is the
cell-wise image under `normalizeBool`, and `normalizeBool` sends a cell
to true exactly when it is the string `Yes`. -/
theorem C8_boolean_normalization (df : DataFrame) (col : String) (cells : List Cell)
    (X : DataFrame) (y : List Int)
    (hcol : col ∈ booleanCols) (hc : df.lookup col = some cells)
    (hok : process df = .ok (X, y)) :
    X.lookup col = some (cells.map normalizeBool) ∧
    ∀ c, normalizeBool c = Cell.bool (decide (c = Cell.str "Yes")) := by
  refine ⟨?_, normalizeBool_eq⟩
  rcases process_ok_inv df X y hok with ⟨d4, ho, ht⟩
  rcases targetExtract_ok_inv _ X y ht with ⟨cells2, hcl, hcast, hX⟩
  have hpid : col ≠ "policy_id" :=
    fun hcq => (by decide : "policy_id" ∉ booleanCols) (hcq ▸ hcol)
  have hfl : col ∉ floatCols :=
    fun hf => (by decide : ∀ x ∈ booleanCols, x ∉ floatCols) col hcol hf
  have hnc : col ≠ "ncap_rating" :=
    fun hcq => (by decide : "ncap_rating" ∉ booleanCols) (hcq ▸ hcol)
  have hNC : col ≠ "NCAP_Rating" :=
    fun hcq => (by decide : "NCAP_Rating" ∉ booleanCols) (hcq ▸ hcol)
  have hcat : col ∉ categoricalCols :=
    fun hf => (by decide : ∀ x ∈ booleanCols, x ∉ categoricalCols) col hcol hf
  have hic : col ≠ "is_claim" :=
    fun hcq => (by decide : "is_claim" ∉ booleanCols) (hcq ▸ hcol)
  have h1 : (dropIdentifiers df).lookup col = some cells := by
    rw [lookup_dropIdentifiers_ne col df hpid]
    exact hc
  have h2 : (booleanConvert (dropIdentifiers df)).lookup col = some (cells.map normalizeBool) :=
    lookup_foldMap_self col booleanCols normalizeBool _ cells hcol (by decide) h1
  have h3 : (floatConvert (booleanConvert (dropIdentifiers df))).lookup col
      = some (cells.map normalizeBool) := by
    rw [lookup_floatConvert_ne col _ hfl]
    exact h2
  have h4 : d4.lookup col = some (cells.map normalizeBool) := by
    rw [ordinalEncode_lookup_ne col _ _ hnc hNC ho]
    exact h3
  have h5 : (get_dummies d4).lookup col = some (cells.map normalizeBool) :=
    lookup_get_dummies_eq col d4 _ hcat h4
  rw [hX, lookup_dropColumn_ne col _ _ hic]
  exact h5

/-- Claim C8 witness: on a concrete table, `is_parking_camera` values
`Yes`, `No`, null and the stray number 3 come out as
true, false, false, false. -/
theorem C8_witness :
    DataFrame.lookup "is_parking_camera"
      ⟨[("is_parking_camera", [Cell.bool true, Cell.bool false, Cell.bool false, Cell.bool false])]⟩
      = some ([Cell.str "Yes", Cell.str "No", Cell.null, Cell.num 3].map normalizeBool) :=
  (C8_boolean_normalization
    ⟨[("is_parking_camera", [Cell.str "Yes", Cell.str "No", Cell.null, Cell.num 3]),
      ("is_claim", [Cell.num 1, Cell.num 0, Cell.num 1, Cell.num 0])]⟩
    "is_parking_camera" [Cell.str "Yes", Cell.str "No", Cell.null, Cell.num 3]
    ⟨[("is_parking_camera", [Cell.bool true, Cell.bool false, Cell.bool false, Cell.bool false])]⟩
    [1, 0, 1, 0] (by decide) (by decide) (by decide)).1

/-! ## Claim C9 -/

/-- Claim C9: `process` never mutates its argument.  In the heap
semantics `processHeap`, every write targets the freshly allocated copy
or other fresh objects, so after the call the input table object is
unchanged (bitwise the same frame), and on success the returned `X` and
`y` are new objects (ids distinct from the input's) holding exactly the
`process` result. -/
theorem C9_no_mutation (h : Heap) (i : Nat) (df : DataFrame)
    (hg : heapGet h i = some (.frame df)) :
    heapGet (processHeap h i).2 i = some (.frame df) ∧
    ∀ jk : Nat × Nat, (processHeap h i).1 = .ok jk →
      jk.1 ≠ i ∧ jk.2 ≠ i ∧
      ∃ X y, process df = .ok (X, y) ∧
        heapGet (processHeap h i).2 jk.1 = some (.frame X) ∧
        heapGet (processHeap h i).2 jk.2 = some (.series y) := by
  have hlt : i < freshId h := lt_freshId_of_get h i _ hg
  unfold processHeap
  cases ho : ordinalEncode (floatConvert (booleanConvert (dropIdentifiers df))) with
  | error e =>
    simp only [hg, ho]
    constructor
    · rw [heapGet_heapSet_ne _ _ _ _ (by omega), heapGet_heapSet_ne _ _ _ _ (by omega),
        heapGet_heapSet_ne _ _ _ _ (by omega), heapGet_heapSet_ne _ _ _ _ (by omega)]
      exact hg
    · intro jk hjk
      simp at hjk
  | ok d4 =>
    cases ht : targetExtract (get_dummies d4) with
    | error e =>
      simp only [hg, ho, ht]
      constructor
      · rw [heapGet_heapSet_ne _ _ _ _ (by omega), heapGet_heapSet_ne _ _ _ _ (by omega),
          heapGet_heapSet_ne _ _ _ _ (by omega), heapGet_heapSet_ne _ _ _ _ (by omega),
          heapGet_heapSet_ne _ _ _ _ (by omega), heapGet_heapSet_ne _ _ _ _ (by omega)]
        exact hg
      · intro jk hjk
        simp at hjk
    | ok Xy =>
      simp only [hg, ho, ht]
      constructor
      · rw [heapGet_heapSet_ne _ _ _ _ (by omega), heapGet_heapSet_ne _ _ _ _ (by omega),
          heapGet_heapSet_ne _ _ _ _ (by omega), heapGet_heapSet_ne _ _ _ _ (by omega),
          heapGet_heapSet_ne _ _ _ _ (by omega), heapGet_heapSet_ne _ _ _ _ (by omega),
          heapGet_heapSet_ne _ _ _ _ (by omega), heapGet_heapSet_ne _ _ _ _ (by omega)]
        exact hg
      · intro jk hjk
        simp only [Except.ok.injEq] at hjk
        subst hjk
        refine ⟨by omega, by omega, Xy.1, Xy.2, ?_, ?_, ?_⟩
        · rw [process_eq_of df d4 ho, ht]
        · rw [heapGet_heapSet_ne _ _ _ _ (by omega)]
          exact heapGet_heapSet_self _ _ _
        · exact heapGet_heapSet_self _ _ _

/-- Claim C9 witness: on a concrete one-object heap, the input object is
unchanged after processing and the results live in fresh objects. -/
theorem C9_witness :
    heapGet (processHeap [(0, PObj.frame ⟨[("is_claim", [Cell.num 1])]⟩)] 0).2 0
      = some (.frame ⟨[("is_claim", [Cell.num 1])]⟩) ∧
    ∀ jk : Nat × Nat,
      (processHeap [(0, PObj.frame ⟨[("is_claim", [Cell.num 1])]⟩)] 0).1 = .ok jk →
      jk.1 ≠ 0 ∧ jk.2 ≠ 0 ∧
      ∃ X y, process ⟨[("is_claim", [Cell.num 1])]⟩ = .ok (X, y) ∧
        heapGet (processHeap [(0, PObj.frame ⟨[("is_claim", [Cell.num 1])]⟩)] 0).2 jk.1
          = some (.frame X) ∧
        heapGet (processHeap [(0, PObj.frame ⟨[("is_claim", [Cell.num 1])]⟩)] 0).2 jk.2
          = some (.series y) :=
  C9_no_mutation [(0, PObj.frame ⟨[("is_claim", [Cell.num 1])]⟩)] 0
    ⟨[("is_claim", [Cell.num 1])]⟩ (by decide)

/-! ## Claim C3 -/

/-- Claim C3, counterexample: with `y_true = [0,0]` and
`y_pred = [0,1]` the confusion matrix is 2×2 with `FN + TP = 0`, so the
false-negative rate is undefined; the code returns `0` for it — not the
not-a-number sentinel the claim asserts — while the undefined ROC-AUC
does get NaN. -/
theorem C3_counterexample :
    (evaluate [false, false] [false, true] "m" none).FNR = .val 0 ∧
    (evaluate [false, false] [false, true] "m" none).ROC_AUC = .nan ∧
    MVal.val 0 ≠ MVal.nan := by
  have h1 : FNcount [false, false] [false, true] = 0 := by decide
  have h2 : TPcount [false, false] [false, true] = 0 := by decide
  unfold evaluate
  rw [if_pos (by decide : ([false, false] : List Bool).length = ([false, true] : List Bool).length ∧
    true ∈ [false, false] ++ [false, true] ∧ false ∈ [false, false] ++ [false, true])]
  refine ⟨?_, ?_, by decide⟩
  · show MVal.val (if (FNcount [false, false] [false, true] : ℚ) + (TPcount [false, false] [false, true] : ℚ) > 0
        then (FNcount [false, false] [false, true] : ℚ) /
          ((FNcount [false, false] [false, true] : ℚ) + (TPcount [false, false] [false, true] : ℚ))
        else 0) = .val 0
    rw [h1, h2]
    norm_num
  · show roc_auc_score [false, false] (([false, true] : List Bool).map (fun (b : Bool) => if b then (1 : ℚ) else 0)) = .nan
    unfold roc_auc_score
    rw [if_neg (fun hc2 => (by decide : true ∉ ([false, false] : List Bool)) hc2.2.1)]

/-- Claim C3 (amended): when the confusion matrix is 2×2 but a metric is
undefined, evaluation does not abort: the undefined ROC-AUC (single-class
`y_true`) is the NaN sentinel while accuracy, precision, recall and F1
are still returned as numbers; the undefined false-negative rate
(`FN + TP = 0`) is returned as 0, not NaN.  (Only when the confusion
matrix itself cannot be unpacked — a single class overall — are all
metrics NaN.) -/
theorem C3_metric_degradation (yt yp : List Bool) (mn : String) (ys : Option (List ℚ))
    (hlen : yt.length = yp.length) (hT : true ∈ yt ++ yp) (hF : false ∈ yt ++ yp)
    (hdeg : true ∉ yt) :
    (evaluate yt yp mn ys).ROC_AUC = .nan ∧
    (evaluate yt yp mn ys).FNR = .val 0 ∧
    (∃ a, (evaluate yt yp mn ys).Accuracy = .val a) ∧
    (∃ p, (evaluate yt yp mn ys).Precision = .val p) ∧
    (∃ r, (evaluate yt yp mn ys).Recall = .val r) ∧
    (∃ f, (evaluate yt yp mn ys).F1_Score = .val f) := by
  have hcond : yt.length = yp.length ∧ true ∈ yt ++ yp ∧ false ∈ yt ++ yp := ⟨hlen, hT, hF⟩
  have hTPnil : (yt.zip yp).filter (fun p => p.1 && p.2) = [] := by
    apply List.filter_eq_nil_iff.mpr
    intro p hp
    intro hab
    rw [Bool.and_eq_true] at hab
    obtain ⟨a, b⟩ := p
    exact hdeg (hab.1 ▸ (List.of_mem_zip hp).1)
  have hFNnil : (yt.zip yp).filter (fun p => p.1 && !p.2) = [] := by
    apply List.filter_eq_nil_iff.mpr
    intro p hp
    intro hab
    rw [Bool.and_eq_true] at hab
    obtain ⟨a, b⟩ := p
    exact hdeg (hab.1 ▸ (List.of_mem_zip hp).1)
  have hTP : TPcount yt yp = 0 := by
    unfold TPcount
    rw [hTPnil]
    rfl
  have hFN : FNcount yt yp = 0 := by
    unfold FNcount
    rw [hFNnil]
    rfl
  unfold evaluate
  rw [if_pos hcond]
  refine ⟨?_, ?_, ⟨_, rfl⟩, ⟨_, rfl⟩, ⟨_, rfl⟩, ⟨_, rfl⟩⟩
  · show (match ys with
      | some sc => roc_auc_score yt sc
      | none => roc_auc_score yt (yp.map (fun (b : Bool) => if b then (1 : ℚ) else 0))) = .nan
    have hroc : ∀ sc, roc_auc_score yt sc = .nan := by
      intro sc
      unfold roc_auc_score
      rw [if_neg (fun hcond2 => hdeg hcond2.2.1)]
    cases ys with
    | some sc => exact hroc sc
    | none => exact hroc _
  · show MVal.val (if (FNcount yt yp : ℚ) + (TPcount yt yp : ℚ) > 0
        then (FNcount yt yp : ℚ) / ((FNcount yt yp : ℚ) + (TPcount yt yp : ℚ))
        else 0) = .val 0
    rw [hTP, hFN]
    norm_num

/-- Claim C3 witness: the amended behaviour on a concrete degenerate
truth vector `[0,0,0]` against predictions `[1,0,1]`. -/
theorem C3_witness :
    (evaluate [false, false, false] [true, false, true] "m" none).ROC_AUC = .nan ∧
    (evaluate [false, false, false] [true, false, true] "m" none).FNR = .val 0 :=
  ⟨(C3_metric_degradation [false, false, false] [true, false, true] "m" none
      (by decide) (by decide) (by decide) (by decide)).1,
   (C3_metric_degradation [false, false, false] [true, false, true] "m" none
      (by decide) (by decide) (by decide) (by decide)).2.1⟩

/-! ## Claim C4 -/

theorem mem_keys_aset {α β : Type} [DecidableEq α] (a : α) (v : β) (l : List (α × β)) :
    a ∈ (aset a v l).map Prod.fst := by
  unfold aset
  by_cases hs : (alookup a l).isSome
  · rw [if_pos hs]
    cases hl : alookup a l with
    | none => rw [hl] at hs; simp at hs
    | some w =>
      have hmem := alookup_mem hl
      have hmem2 : ((a : α), v) ∈ l.map (fun p => if p.1 = a then (a, v) else p) :=
        List.mem_map.mpr ⟨(a, w), hmem, by simp⟩
      exact List.mem_map.mpr ⟨(a, v), hmem2, rfl⟩
  · rw [if_neg hs]
    simp

/-- Claim C4, counterexample: after registering a scaler under the name
`A` (capital), `list_available_scalers` contains `A` but
`create_scaler "A"` lower-cases the lookup key and raises the
unknown-scaler error instead of returning an instance — so the claim's
"for every name" is false on the code. -/
theorem C4_counterexample :
    "A" ∈ list_available_scalers (register_scaler defaultScalerState "A" (.custom 0) "d") ∧
    create_scaler (register_scaler defaultScalerState "A" (.custom 0) "d") "A" =
      .error (.unknown "a" ["none", "standard", "minmax", "robust", "A"]) := by
  decide

/-- Claim C4 (amended): for every name equal to its lower-cased form (and
any constructor and description), after
`register_scaler(name, constructor, description)` the name is listed by
`list_available_scalers` and `create_scaler(name)` returns a freshly
constructed instance of that constructor, overwriting any entry
previously registered under the same name. -/
theorem C4_register_create (st : ScalerFactoryState) (name : String) (cls : ScalerClass)
    (desc : String) (hlow : pyLower name = name) :
    name ∈ list_available_scalers (register_scaler st name cls desc) ∧
    create_scaler (register_scaler st name cls desc) name = .ok ⟨cls⟩ := by
  constructor
  · unfold list_available_scalers register_scaler
    exact mem_keys_aset name cls st.scalerRegistry
  · unfold create_scaler register_scaler
    rw [hlow]
    simp only [alookup_aset_self]

/-- Claim C4 witness: registering `custom` twice — the second
registration overwrites the first, is listed, and `create_scaler`
returns an instance of the newest constructor. -/
theorem C4_witness :
    "custom" ∈ list_available_scalers (register_scaler
      (register_scaler defaultScalerState "custom" (.custom 1) "old") "custom" (.custom 7) "new") ∧
    create_scaler (register_scaler
      (register_scaler defaultScalerState "custom" (.custom 1) "old") "custom" (.custom 7) "new")
      "custom" = .ok ⟨.custom 7⟩ :=
  C4_register_create (register_scaler defaultScalerState "custom" (.custom 1) "old")
    "custom" (.custom 7) "new" (by decide)

/-! ## Claim C5 -/

/-- Claim C5: for every name not present in the corresponding registry
(after lower-casing, which both factories apply before lookup),
`create_scaler` and `create_strategy` raise an error carrying the
offending lower-cased requested name and the full list of currently
registered names — never a default instance. -/
theorem C5_unknown_name_raises (stS : ScalerFactoryState)
    (reg : List (String × StrategyClass)) (name ss : String) (rs : Option Int)
    (h1 : alookup (pyLower name) stS.scalerRegistry = none)
    (h2 : alookup (pyLower name) reg = none) :
    create_scaler stS name = .error (.unknown (pyLower name) (stS.scalerRegistry.map Prod.fst)) ∧
    create_strategy reg name ss rs = .error (.unknown (pyLower name) (reg.map Prod.fst)) := by
  unfold create_scaler create_strategy
  rw [h1, h2]
  exact ⟨rfl, rfl⟩

/-- Claim C5 witness: the mixed-case unknown name `Bogus` is lower-cased
and rejected by both factories, with the error naming it and listing the
registered names. -/
theorem C5_witness :
    create_scaler defaultScalerState "Bogus" =
      .error (.unknown "bogus" ["none", "standard", "minmax", "robust"]) ∧
    create_strategy defaultStrategyRegistry "Bogus" "minority" (some 1) =
      .error (.unknown "bogus" ["none", "random", "smote", "adasyn"]) :=
  C5_unknown_name_raises defaultScalerState defaultStrategyRegistry "Bogus" "minority" (some 1)
    (by decide) (by decide)

/-! ## Claim C6 -/

theorem resample_preserves_state (fr : FitResampleFn) (s : StrategyInstance)
    (X : List (List ℚ)) (y : List Int) : (s.resample fr X y).2 = s := by
  obtain ⟨cls, ss, rs⟩ := s
  cases cls <;> rfl

/-- Claim C6: for a synthesis-based strategy (`random`, `smote`,
`adasyn`) created by the factory with a non-None `random_state`, calling
`resample` twice on the same `(X, y)` yields identical output both times
(the strategy keeps no mutable state: the second call sees the same
`self`), and any two strategies created with the same parameters produce
the same output.  The imblearn `fit_resample` itself is modelled, per the
spec, as an arbitrary deterministic function of the sampler parameters
and input. -/
theorem C6_resample_deterministic (fr : FitResampleFn) (method ss : String) (r : Int)
    (s : StrategyInstance) (X : List (List ℚ)) (y : List Int)
    (_hm : method ∈ (["random", "smote", "adasyn"] : List String))
    (hc : create_strategy defaultStrategyRegistry method ss (some r) = .ok s) :
    (s.resample fr X y).1 = (((s.resample fr X y).2).resample fr X y).1 ∧
    ∀ s', create_strategy defaultStrategyRegistry method ss (some r) = .ok s' →
      (s'.resample fr X y).1 = (s.resample fr X y).1 := by
  constructor
  · rw [resample_preserves_state]
  · intro s' hc'
    rw [hc] at hc'
    cases hc'
    rfl

/-- Claim C6 witness: a SMOTE strategy created with seed 42 gives the
same result on consecutive `resample` calls. -/
theorem C6_witness :
    ((StrategyInstance.mk .smote (some "minority") (some 42)).resample
      (fun _ _ _ X y => (X, y)) [[1]] [0]).1 =
    ((((StrategyInstance.mk .smote (some "minority") (some 42)).resample
      (fun _ _ _ X y => (X, y)) [[1]] [0]).2).resample
      (fun _ _ _ X y => (X, y)) [[1]] [0]).1 :=
  (C6_resample_deterministic (fun _ _ _ X y => (X, y)) "smote" "minority" 42
    ⟨.smote, some "minority", some 42⟩ [[1]] [0] (by decide) (by decide)).1

/-! ## Claim C10 -/

/-- Claim C10: `get_description` never raises — it returns the stored
description for a name registered with a non-empty description and the
text `Unknown scaler` for any name absent from the description dict; its
lookup is case-sensitive (no lower-casing), so the name `Standard` (whose
lower-cased form is registered) is accepted by `create_scaler` yet gets
`Unknown scaler` from `get_description`. -/
theorem C10_get_description_total :
    (∀ st name cls desc, desc ≠ "" →
      get_description (register_scaler st name cls desc) name = desc) ∧
    (∀ st name, alookup name st.descriptions = none →
      get_description st name = "Unknown scaler") ∧
    (∃ inst, create_scaler defaultScalerState "Standard" = .ok inst) ∧
    get_description defaultScalerState "Standard" = "Unknown scaler" := by
  refine ⟨?_, ?_, ⟨⟨.standardScaler⟩, by decide⟩, by decide⟩
  · intro st name cls desc hdesc
    unfold get_description register_scaler
    rw [alookup_aset_self, if_neg hdesc]
    rfl
  · intro st name h
    unfold get_description
    rw [h]
    rfl

/-- Claim C10 witness: a concrete registration's description is
returned, and an unregistered name gets `Unknown scaler`. -/
theorem C10_witness :
    get_description (register_scaler defaultScalerState "x" (.custom 1) "hello") "x" = "hello" ∧
    get_description defaultScalerState "bogus" = "Unknown scaler" :=
  ⟨C10_get_description_total.1 defaultScalerState "x" (.custom 1) "hello" (by decide),
   C10_get_description_total.2.1 defaultScalerState "bogus" (by decide)⟩

end PMBC
